import Mathlib

/-!
Shallow embedding of src/cli.py, a console catalog browser for Rick and
Morty characters, together with proofs about the claims of the
specification.

The embedding covers the data model (class Character), the hybrid storage
layer (class CharacterStorage: fetch_from_api, get_all, get_by_id, search,
add_user_character, save and load of the durable store), the argument
parser (class ArgsParser) and the dispatch facade (CLI.exec_command).

Python strings are modelled through their character lists, so that every
definition evaluates inside the kernel.  External effects are passed
explicitly: the HTTP response consumed by fetch_from_api and the content
of the durable store user_characters.json are arguments of the embedded
functions, and file writes are returned as values.
-/

namespace Cli

/-- Python str.lower.  The repository only lower-cases ASCII command
tokens, so the ASCII case map of Char.toLower is a faithful model. -/
def pyLower (s : String) : String := ⟨s.data.map Char.toLower⟩

/-- Python s.startswith(p). -/
def pyStartsWith (s p : String) : Bool := p.data.isPrefixOf s.data

/-- Python s[:n] (slice of the first n code points). -/
def pyTake (s : String) (n : Nat) : String := ⟨s.data.take n⟩

/-- Python s[n:] (slice dropping the first n code points). -/
def pyDrop (s : String) (n : Nat) : String := ⟨s.data.drop n⟩

/-- Helper of pySplit: walks the characters, accumulating the current
token reversed, and closes a token at each whitespace run. -/
def wsSplitAux : List Char → List Char → List String
  | [], cur => if cur.isEmpty then [] else [⟨cur.reverse⟩]
  | c :: rest, cur =>
    if c.isWhitespace then
      if cur.isEmpty then wsSplitAux rest []
      else ⟨cur.reverse⟩ :: wsSplitAux rest []
    else wsSplitAux rest (c :: cur)

/-- Python str.split() with no separator argument: splits on runs of
whitespace and never yields empty tokens, so the preceding str.strip()
performed by the source is absorbed. -/
def pySplit (s : String) : List String := wsSplitAux s.data []

/-- Python substring containment, needle in hay (empty needle matches
everything). -/
def containsSeq : List Char → List Char → Bool
  | [], needle => needle.isEmpty
  | h :: t, needle => needle.isPrefixOf (h :: t) || containsSeq t needle

/-- Python needle in hay for strings. -/
def strIn (needle hay : String) : Bool := containsSeq hay.data needle.data

/-- Dataclass Character of src/cli.py.  Integer fields are Lean integers
because Python integers are unbounded. -/
structure Character where
  id : Int
  name : String
  status : String
  species : String
  gender : String
  origin : String
  location : String
  image_url : String
  episode_count : Nat
  created_by_user : Bool
deriving DecidableEq, Repr

/-- One raw JSON record of the remote API, as read by fetch_from_api.
The id and name keys are mandatory (the source indexes them directly);
every other key is optional.  The origin and location values are objects
whose name sub-field may itself be missing, hence Option (Option String):
none models an absent outer key (the source substitutes an empty dict),
some none an object without the name key. -/
structure RawItem where
  id : Int
  name : String
  status : Option String
  species : Option String
  gender : Option String
  origin : Option (Option String)
  location : Option (Option String)
  image : Option String
  episode : Option (List String)
deriving DecidableEq, Repr

/-- Mapping of one raw API record to a Character, exactly the keyword
arguments of the Character constructor call inside fetch_from_api.  Note
the lowercase "unknown" defaults for status and gender against the
capitalised "Unknown" defaults for species, origin and location. -/
def mapItem (item : RawItem) : Character :=
  { id := item.id
    name := item.name
    status := item.status.getD "unknown"
    species := item.species.getD "Unknown"
    gender := item.gender.getD "unknown"
    origin := (item.origin.getD none).getD "Unknown"
    location := (item.location.getD none).getD "Unknown"
    image_url := item.image.getD ""
    episode_count := (item.episode.getD []).length
    created_by_user := false }

/-- The transport failures that requests.RequestException covers at the
call site: timeout, connection error, and the HTTPError raised by
raise_for_status on a non-success HTTP status. -/
inductive TransportError where
  | timeout
  | connectionError
  | httpStatus (code : Nat)
deriving DecidableEq, Repr

/-- Outcome of the HTTP call performed by fetch_from_api: either a decoded
JSON body whose results key holds a list of records (an absent results key
is the empty list), or a transport failure. -/
inductive ApiResponse where
  | ok (results : List RawItem)
  | failure (e : TransportError)
deriving DecidableEq, Repr

/-- In-memory state of class CharacterStorage: the remote-origin list, the
user-origin list and the next-user-id counter. -/
structure CharacterStorage where
  api_characters : List Character
  user_characters : List Character
  next_id : Int
deriving DecidableEq, Repr

/-- CharacterStorage.get_all: remote-origin entries followed by
user-origin entries. -/
def CharacterStorage.get_all (st : CharacterStorage) : List Character :=
  st.api_characters ++ st.user_characters

/-- The linear scan of CharacterStorage.get_by_id, returning the first
entry whose id matches. -/
def findById (l : List Character) (char_id : Int) : Option Character :=
  match l with
  | [] => none
  | c :: rest => if c.id = char_id then some c else findById rest char_id

/-- CharacterStorage.get_by_id. -/
def CharacterStorage.get_by_id (st : CharacterStorage) (char_id : Int) :
    Option Character :=
  findById st.get_all char_id

/-- CharacterStorage.search: lower-cases the query once, then filters
get_all by Python substring containment against the lower-cased name. -/
def CharacterStorage.search (st : CharacterStorage) (query : String) :
    List Character :=
  let q := pyLower query
  st.get_all.filter (fun c => strIn q (pyLower c.name))

/-- CharacterStorage.fetch_from_api: on success the remote-origin list is
replaced wholesale by the mapped records and the mapped records are
returned; on a transport failure the exception is caught, a diagnostic is
printed (not modelled) and the empty list is returned with the state
untouched. -/
def CharacterStorage.fetch_from_api (st : CharacterStorage)
    (resp : ApiResponse) : CharacterStorage × List Character :=
  match resp with
  | .ok results =>
    let characters := results.map mapItem
    ({ st with api_characters := characters }, characters)
  | .failure _ => (st, [])

/-- JSON values, the common language of json.dump and json.load for the
durable store user_characters.json. -/
inductive JValue where
  | jnull
  | jbool (b : Bool)
  | jnum (n : Int)
  | jstr (s : String)
  | jarr (items : List JValue)
  | jobj (fields : List (String × JValue))

/-- Lookup of a key in a JSON object.  Objects produced by json.load have
unique keys, so taking the first binding is faithful. -/
def jlookup (fields : List (String × JValue)) (k : String) : Option JValue :=
  (fields.find? (fun p => p.1 == k)).map (fun p => p.2)

/-- The field names of dataclass Character, the only keyword arguments its
constructor accepts. -/
def characterKeys : List String :=
  ["id", "name", "status", "species", "gender", "origin", "location",
   "image_url", "episode_count", "created_by_user"]

/-- dataclasses.asdict applied to a Character, as serialized by
json.dump inside save_user_characters. -/
def encodeChar (c : Character) : JValue :=
  .jobj [("id", .jnum c.id), ("name", .jstr c.name),
         ("status", .jstr c.status), ("species", .jstr c.species),
         ("gender", .jstr c.gender), ("origin", .jstr c.origin),
         ("location", .jstr c.location), ("image_url", .jstr c.image_url),
         ("episode_count", .jnum c.episode_count),
         ("created_by_user", .jbool c.created_by_user)]

/-- The call Character(**item) performed by load_user_characters on one
deserialized record: none models the TypeError that Python raises when
item is not an object, when a key is not a Character field name, or when
a required field is missing.  episode_count and created_by_user have
dataclass defaults (0 and False) and may be absent.  dataclasses perform
no runtime type check; the typed model maps a record whose values do not
fit the field types to none as well, a case no saved store produces. -/
def decodeChar (v : JValue) : Option Character :=
  match v with
  | .jobj fields =>
    if fields.all (fun p => characterKeys.contains p.1) then
      match jlookup fields "id", jlookup fields "name",
            jlookup fields "status", jlookup fields "species",
            jlookup fields "gender", jlookup fields "origin",
            jlookup fields "location", jlookup fields "image_url" with
      | some (.jnum i), some (.jstr n), some (.jstr st), some (.jstr sp),
        some (.jstr g), some (.jstr o), some (.jstr loc), some (.jstr img) =>
        let ep : Option Nat :=
          match jlookup fields "episode_count" with
          | some (.jnum e) => some e.toNat
          | none => some 0
          | _ => none
        let cb : Option Bool :=
          match jlookup fields "created_by_user" with
          | some (.jbool b) => some b
          | none => some false
          | _ => none
        match ep, cb with
        | some e, some b => some ⟨i, n, st, sp, g, o, loc, img, e, b⟩
        | _, _ => none
      | _, _, _, _, _, _, _, _ => none
    else none
  | _ => none

/-- The list comprehension of load_user_characters over the deserialized
store: the body must be a JSON array and every record must construct.
Iterating a non-array body feeds non-object items (or dictionary keys)
into Character(**item), which raises TypeError, hence none. -/
def decodeStore (v : JValue) : Option (List Character) :=
  match v with
  | .jarr items => items.mapM decodeChar
  | _ => none

/-- Python max(c.id for c in l) over a non-empty list (the source guards
the empty case). -/
def maxUserId : List Character → Int
  | [] => 0
  | c :: rest => rest.foldl (fun m d => max m d.id) c.id

/-- Content of the durable store from the point of view of startup:
absent file, existing file whose open or read raises OSError or
UnicodeDecodeError, existing file whose body is not valid JSON
(json.JSONDecodeError), or a decoded JSON body. -/
inductive StoreContent where
  | absent
  | unreadable
  | invalidJSON
  | json (v : JValue)

/-- The uncaught exceptions through which load_user_characters can fail:
an OS error opening or reading the file, or the TypeError raised by
Character(**item); neither is in the except clause, which names only
json.JSONDecodeError and KeyError. -/
inductive LoadError where
  | osError
  | typeError
deriving DecidableEq, Repr

/-- CharacterStorage.save_user_characters as a value: the JSON body
written to the durable store. -/
def saveUserCharacters (l : List Character) : StoreContent :=
  .json (.jarr (l.map encodeChar))

/-- CharacterStorage context at startup: the constructor sets the list
empty and the counter to 10000, then load_user_characters overrides them
from the durable store.  Absent file: the os.path.exists guard skips the
load.  Invalid JSON: json.JSONDecodeError is caught and the list is reset
to empty.  Unreadable file or a record that fails construction: OSError
resp. TypeError propagate and startup fails.  When the loaded list is
non-empty the counter becomes one more than its maximal id. -/
def loadUserCharacters (store : StoreContent) :
    Except LoadError (List Character × Int) :=
  match store with
  | .absent => .ok ([], 10000)
  | .unreadable => .error .osError
  | .invalidJSON => .ok ([], 10000)
  | .json v =>
    match decodeStore v with
    | some chars =>
      .ok (chars, if chars.isEmpty then 10000 else maxUserId chars + 1)
    | none => .error .typeError

/-- CharacterStorage.add_user_character: overwrites the id of the given
character with the counter, marks it user-created, increments the
counter, appends it and immediately persists the whole user-origin list.
The write to the durable store is returned as a value. -/
def CharacterStorage.add_user_character (st : CharacterStorage)
    (char : Character) : CharacterStorage × StoreContent :=
  let c := { char with id := st.next_id, created_by_user := true }
  let users := st.user_characters ++ [c]
  ({ st with user_characters := users, next_id := st.next_id + 1 },
   saveUserCharacters users)

/-- Dataclass ParsedArgs: command name, positional arguments, and the
option dictionary, modelled as an insertion-ordered association list. -/
structure ParsedArgs where
  command : String
  args : List String
  options : List (String × String)
deriving DecidableEq, Repr

/-- Python dictionary assignment d[k] = v on an insertion-ordered
association list: an existing key keeps its position and takes the new
value, a new key is appended. -/
def dictInsert : List (String × String) → String → String →
    List (String × String)
  | [], k, v => [(k, v)]
  | (k0, v0) :: rest, k, v =>
    if k0 = k then (k0, v) :: rest else (k0, v0) :: dictInsert rest k v

/-- The while loop of ArgsParser.parse over the tokens after the command
name, with the positional-argument and option accumulators.  A long
option consumes the following token as its value when that token exists
and does not begin with a dash (two tokens advanced), otherwise its value
is empty (one token advanced). -/
def parseLoop : List String → List String → List (String × String) →
    List String × List (String × String)
  | [], args, options => (args, options)
  | [part], args, options =>
    if pyStartsWith part "--" then
      (args, dictInsert options (pyDrop part 2) "")
    else if pyStartsWith part "-" then
      (args, dictInsert options (pyDrop part 1) "true")
    else
      (args ++ [part], options)
  | part :: v :: rest2, args, options =>
    if pyStartsWith part "--" then
      let key := pyDrop part 2
      if pyStartsWith v "-" then
        parseLoop (v :: rest2) args (dictInsert options key "")
      else
        parseLoop rest2 args (dictInsert options key v)
    else if pyStartsWith part "-" then
      parseLoop (v :: rest2) args (dictInsert options (pyDrop part 1) "true")
    else
      parseLoop (v :: rest2) (args ++ [part]) options

namespace ArgsParser

/-- ArgsParser.parse: whitespace-splits the raw line; the empty line
yields the empty invocation, otherwise the first token lower-cased
becomes the command and the remaining tokens feed the loop. -/
def parse (raw_input : String) : ParsedArgs :=
  match pySplit raw_input with
  | [] => ⟨"", [], []⟩
  | cmd :: rest =>
    let (args, options) := parseLoop rest [] []
    ⟨pyLower cmd, args, options⟩

end ArgsParser

/-- Outcome of CLI.exec_command, keeping the structure of the returned
CommandResult: the failure for an empty command name, the failure for an
unknown name carrying the computed suggestion list (appended to the
message exactly when non-empty), or the delegation to the matching
handler with the positional arguments. -/
inductive DispatchOutcome where
  | emptyCommand
  | unknownCommand (typed : String) (suggestions : List String)
  | run (name : String) (args : List String)
deriving DecidableEq, Repr

/-- CLI.exec_command over the names registered in the command dictionary:
parses the raw line, rejects the empty command, looks the name up, and
otherwise computes the suggestions as the registered names starting with
the first two characters (Python slice, shorter commands give a shorter
prefix) of the typed name. -/
def execCommand (registered : List String) (raw_input : String) :
    DispatchOutcome :=
  let parsed := ArgsParser.parse raw_input
  if parsed.command = "" then .emptyCommand
  else if registered.contains parsed.command then
    .run parsed.command parsed.args
  else
    .unknownCommand parsed.command
      (registered.filter (fun c => pyStartsWith c (pyTake parsed.command 2)))

/-- The operations of the storage life cycle that the identifier
invariant quantifies over: a remote fetch with its response, the creation
of a user entry, and a process restart that reloads the durable store. -/
inductive Op where
  | fetch (resp : ApiResponse)
  | add (char : Character)
  | reload

/-- A storage object together with the durable store it persists to. -/
structure World where
  st : CharacterStorage
  file : StoreContent

/-- One operation on the world.  fetch and add run the storage methods;
reload builds a fresh CharacterStorage from the durable store, as the
constructor does.  A reload whose load raises (impossible for stores the
program itself wrote) reaches no storage state at all and is modelled as
leaving the world unchanged. -/
def step (w : World) (op : Op) : World :=
  match op with
  | .fetch resp => { w with st := (w.st.fetch_from_api resp).1 }
  | .add c =>
    let (st, f) := w.st.add_user_character c
    { st := st, file := f }
  | .reload =>
    match loadUserCharacters w.file with
    | .ok (u, n) =>
      { st := { api_characters := [], user_characters := u, next_id := n },
        file := w.file }
    | .error _ => w

/-- The initial world: a fresh install with no durable store, giving the
constructor state of CharacterStorage (both lists empty, counter
10000). -/
def initWorld : World :=
  { st := { api_characters := [], user_characters := [], next_id := 10000 },
    file := .absent }

/-- The storage state after a sequence of operations on a fresh
install. -/
def runOps (ops : List Op) : World := ops.foldl step initWorld

/-! Specification-side definitions.  The following definitions restate
the specification sentences (not the source) about the parser, the
suggestion computation and the search semantics; the claim theorems
compare them with the embedded source functions above. -/

/-- Positional arguments according to the specification sentence: a token
beginning with two dashes is a long option that consumes the next token
as its value when that token exists and does not begin with a dash; a
token beginning with a single dash is a boolean flag; every other token
is appended, in order, to the positional list. -/
def specArgs : List String → List String
  | [] => []
  | [t] =>
    if pyStartsWith t "--" then []
    else if pyStartsWith t "-" then []
    else [t]
  | t :: v :: rest =>
    if pyStartsWith t "--" then
      if pyStartsWith v "-" then specArgs (v :: rest) else specArgs rest
    else if pyStartsWith t "-" then specArgs (v :: rest)
    else t :: specArgs (v :: rest)

/-- Option key/value pairs according to the specification sentence, in
token order: a long option takes the next token as value when that token
exists and does not begin with a dash and the empty value otherwise; a
single-dash token is a boolean flag with value "true". -/
def optPairs : List String → List (String × String)
  | [] => []
  | [t] =>
    if pyStartsWith t "--" then [(pyDrop t 2, "")]
    else if pyStartsWith t "-" then [(pyDrop t 1, "true")]
    else []
  | t :: v :: rest =>
    if pyStartsWith t "--" then
      if pyStartsWith v "-" then (pyDrop t 2, "") :: optPairs (v :: rest)
      else (pyDrop t 2, v) :: optPairs rest
    else if pyStartsWith t "-" then
      (pyDrop t 1, "true") :: optPairs (v :: rest)
    else optPairs (v :: rest)

/-- Storing a sequence of key/value pairs into an initially empty
dictionary, in order. -/
def buildOptions (pairs : List (String × String)) : List (String × String) :=
  pairs.foldl (fun d kv => dictInsert d kv.1 kv.2) []

/-- The parser as the specification describes it: the first token
lower-cased becomes the command name regardless of shape, the remaining
tokens give the positional list and the option map, and empty input
yields the empty invocation. -/
def specParse (raw_input : String) : ParsedArgs :=
  match pySplit raw_input with
  | [] => ⟨"", [], []⟩
  | cmd :: rest => ⟨pyLower cmd, specArgs rest, buildOptions (optPairs rest)⟩

/-- Suggestions for an unknown command according to the amended
specification: every registered name that starts with the first
min(2, length) characters of the typed name. -/
def suggestionsSpec (registered : List String) (typed : String) :
    List String :=
  registered.filter (fun c => pyStartsWith c (pyTake typed 2))

/-- Case-insensitive substring match of a query against a name, as the
specification phrases the search semantics. -/
def ciSubstringMatch (query name : String) : Bool :=
  strIn (pyLower query) (pyLower name)

/-! Helper lemmas. -/

/-- The parser loop equals the specification-side recursion: the
positional accumulator collects specArgs and the option dictionary is the
in-order insertion of optPairs. -/
theorem parseLoop_eq (ps args : List String)
    (options : List (String × String)) :
    parseLoop ps args options =
      (args ++ specArgs ps,
       (optPairs ps).foldl (fun d kv => dictInsert d kv.1 kv.2) options) := by
  induction ps, args, options using parseLoop.induct <;>
    simp_all [parseLoop, specArgs, optPairs]

/-- The empty needle is contained in every character sequence. -/
theorem containsSeq_nil (l : List Char) : containsSeq l [] = true := by
  cases l <;> simp [containsSeq, List.isPrefixOf]

/-- The empty string is a Python substring of every string. -/
theorem strIn_empty (s : String) : strIn "" s = true :=
  containsSeq_nil s.data

/-- The scan of get_by_id misses exactly when no entry has the id. -/
theorem findById_eq_none (l : List Character) (i : Int) :
    findById l i = none ↔ ∀ c ∈ l, c.id ≠ i := by
  induction l with
  | nil => simp [findById]
  | cons c rest ih => by_cases h : c.id = i <;> simp [findById, h, ih]

/-- A hit of the get_by_id scan is the first entry carrying the id. -/
theorem findById_first (l : List Character) (i : Int) (c : Character)
    (h : findById l i = some c) :
    c.id = i ∧ ∃ l₁ l₂, l = l₁ ++ c :: l₂ ∧ ∀ d ∈ l₁, d.id ≠ i := by
  induction l with
  | nil => simp [findById] at h
  | cons a rest ih =>
    by_cases ha : a.id = i
    · simp only [findById, if_pos ha, Option.some.injEq] at h
      subst h
      exact ⟨ha, [], rest, rfl, by simp⟩
    · simp only [findById, if_neg ha] at h
      obtain ⟨hc, l₁, l₂, rfl, hall⟩ := ih h
      exact ⟨hc, a :: l₁, l₂, rfl, by simpa [ha] using hall⟩

/-- When the left part of a concatenation holds a matching entry, the
scan answers from the left part. -/
theorem findById_append_left (l₁ l₂ : List Character) (i : Int)
    (h : ∃ c ∈ l₁, c.id = i) :
    ∃ c, findById (l₁ ++ l₂) i = some c ∧ c ∈ l₁ ∧ c.id = i := by
  induction l₁ with
  | nil => simp at h
  | cons a rest ih =>
    by_cases ha : a.id = i
    · exact ⟨a, by simp [findById, ha], by simp, ha⟩
    · obtain ⟨c, hc, hci⟩ := h
      rcases List.mem_cons.mp hc with rfl | hmem
      · exact absurd hci ha
      · obtain ⟨c', h1, h2, h3⟩ := ih ⟨c, hmem, hci⟩
        exact ⟨c', by simpa [findById, ha] using h1,
               List.mem_cons_of_mem _ h2, h3⟩

/-- The record written by asdict plus json.dump reads back as the same
Character. -/
theorem decodeChar_encodeChar (c : Character) :
    decodeChar (encodeChar c) = some c := rfl

/-- Deserializing a serialized user list reproduces it record by
record. -/
theorem decodeStore_encode (l : List Character) :
    decodeStore (.jarr (l.map encodeChar)) = some l := by
  induction l with
  | nil => rfl
  | cons c rest ih =>
    simp only [List.map_cons, decodeStore, List.mapM_cons]
    rw [decodeChar_encodeChar]
    simp only [decodeStore] at ih
    rw [ih]
    rfl

/-- Full round-trip of the durable store: loading what
save_user_characters wrote yields the same entries, and the counter rule
of the loader applied to them. -/
theorem load_save (l : List Character) :
    loadUserCharacters (saveUserCharacters l) =
      .ok (l, if l.isEmpty then 10000 else maxUserId l + 1) := by
  simp only [saveUserCharacters, loadUserCharacters, decodeStore_encode]

/-- An upper bound on all ids bounds the running maximum. -/
theorem foldl_max_le (l : List Character) (a b : Int) (ha : a ≤ b)
    (h : ∀ c ∈ l, c.id ≤ b) :
    l.foldl (fun m d => max m d.id) a ≤ b := by
  induction l generalizing a with
  | nil => simpa
  | cons c rest ih =>
    exact ih _ (max_le ha (h c (by simp))) (fun d hd => h d (by simp [hd]))

/-- Appending an entry that dominates every id makes it the maximum. -/
theorem maxUserId_append_singleton (u : List Character) (c : Character)
    (h : ∀ d ∈ u, d.id ≤ c.id) : maxUserId (u ++ [c]) = c.id := by
  cases u with
  | nil => rfl
  | cons a rest =>
    show (rest ++ [c]).foldl (fun m d => max m d.id) a.id = c.id
    rw [List.foldl_append]
    exact max_eq_right
      (foldl_max_le rest a.id c.id (h a (by simp))
        (fun d hd => h d (by simp [hd])))

/-- The record mapping of fetch_from_api preserves the remote id. -/
theorem mapItem_id (item : RawItem) : (mapItem item).id = item.id := rfl

/-- Invariant carried by every world the operations can reach, under
remote responses whose ids stay below the reserved threshold: remote ids
are below 10000 and duplicate-free, user ids sit in [10000, next_id) and
are duplicate-free with the user flag set, the counter never went below
10000, and the durable store reloads to exactly the current user list and
counter. -/
def StorageInv (w : World) : Prop :=
  (∀ c ∈ w.st.api_characters, c.id < 10000)
  ∧ ((w.st.api_characters.map (fun c => c.id)).Nodup)
  ∧ (∀ c ∈ w.st.user_characters,
      10000 ≤ c.id ∧ c.id < w.st.next_id ∧ c.created_by_user = true)
  ∧ ((w.st.user_characters.map (fun c => c.id)).Nodup)
  ∧ 10000 ≤ w.st.next_id
  ∧ loadUserCharacters w.file = .ok (w.st.user_characters, w.st.next_id)

/-- Restriction on an operation under which the identifier-disjointness
invariant is provable: a successful fetch response must carry ids below
the reserved user threshold 10000 and without internal duplicates.  The
source never checks either condition; the counterexample below shows the
invariant fails without them. -/
def OpOK : Op → Prop
  | .fetch (.ok results) =>
    (∀ item ∈ results, item.id < 10000)
      ∧ ((results.map (fun item => item.id)).Nodup)
  | _ => True

/-- Every operation respecting OpOK preserves the storage invariant. -/
theorem step_preserves (w : World) (op : Op)
    (hw : StorageInv w) (hop : OpOK op) : StorageInv (step w op) := by
  obtain ⟨hapi, hapiN, huser, huserN, hnext, hfile⟩ := hw
  cases op with
  | fetch resp =>
    cases resp with
    | ok results =>
      obtain ⟨hid, hnod⟩ := hop
      refine ⟨?_, ?_, huser, huserN, hnext, hfile⟩
      · intro c hc
        simp only [step, CharacterStorage.fetch_from_api,
          List.mem_map] at hc
        obtain ⟨item, hitem, rfl⟩ := hc
        exact hid item hitem
      · show (((results.map mapItem).map (fun c => c.id)).Nodup)
        rw [List.map_map]
        exact hnod
    | failure e => exact ⟨hapi, hapiN, huser, huserN, hnext, hfile⟩
  | add c =>
    have hall : ∀ d ∈ w.st.user_characters, d.id ≤ w.st.next_id :=
      fun d hd => le_of_lt (huser d hd).2.1
    refine ⟨hapi, hapiN, ?_, ?_, ?_, ?_⟩
    · intro d hd
      rcases List.mem_append.mp hd with hmem | hmem
      · obtain ⟨h1, h2, h3⟩ := huser d hmem
        exact ⟨h1, h2.trans (lt_add_one _), h3⟩
      · simp only [List.mem_singleton] at hmem
        subst hmem
        exact ⟨hnext, lt_add_one _, rfl⟩
    · show ((w.st.user_characters ++
          [{ c with id := w.st.next_id, created_by_user := true }]).map
            (fun d : Character => d.id)).Nodup
      rw [List.map_append, List.nodup_append]
      refine ⟨huserN, by simp, ?_⟩
      intro x hx hx'
      simp only [List.map_cons, List.map_nil, List.mem_singleton] at hx'
      subst hx'
      obtain ⟨d, hd, hde⟩ := List.mem_map.mp hx
      have := (huser d hd).2.1
      omega
    · show 10000 ≤ w.st.next_id + 1
      omega
    · show loadUserCharacters
          (saveUserCharacters (w.st.user_characters ++
            [{ c with id := w.st.next_id, created_by_user := true }]))
        = .ok (w.st.user_characters ++
            [{ c with id := w.st.next_id, created_by_user := true }],
           w.st.next_id + 1)
      rw [load_save]
      have hempty : (w.st.user_characters ++
          [{ c with id := w.st.next_id, created_by_user := true }]).isEmpty
            = false := by
        cases w.st.user_characters <;> rfl
      have hmax : maxUserId (w.st.user_characters ++
          [{ c with id := w.st.next_id, created_by_user := true }])
            = w.st.next_id :=
        maxUserId_append_singleton _ _ (fun d hd => hall d hd)
      rw [hempty, hmax]
      simp
  | reload =>
    have hstep : step w .reload =
        ⟨⟨[], w.st.user_characters, w.st.next_id⟩, w.file⟩ := by
      simp only [step, hfile]
    rw [hstep]
    exact ⟨by simp, by simp, huser, huserN, hnext, hfile⟩

/-- The invariant holds on a fresh install. -/
theorem initWorld_inv : StorageInv initWorld :=
  ⟨by simp [initWorld], by simp [initWorld], by simp [initWorld],
   by simp [initWorld], le_refl _, rfl⟩

/-- Folding invariant-respecting operations preserves the invariant. -/
theorem foldl_inv (ops : List Op) :
    ∀ w, StorageInv w → (∀ op ∈ ops, OpOK op) →
      StorageInv (ops.foldl step w) := by
  induction ops with
  | nil => exact fun w hw _ => hw
  | cons op rest ih =>
    intro w hw h
    exact ih (step w op) (step_preserves w op hw (h op (by simp)))
      (fun o ho => h o (by simp [ho]))

/-- Every state reachable from a fresh install through operations
respecting OpOK satisfies the storage invariant. -/
theorem runOps_inv (ops : List Op) (h : ∀ op ∈ ops, OpOK op) :
    StorageInv (runOps ops) :=
  foldl_inv ops initWorld initWorld_inv h

/-! Concrete fixtures used by the claim theorems below. -/

/-- A raw API record carrying only the mandatory id and name keys. -/
def bareItem : RawItem :=
  ⟨7, "Birdperson", none, none, none, none, none, none, none⟩

/-- A raw API record whose id already sits at the reserved user
threshold. -/
def impostorItem : RawItem :=
  ⟨10000, "Impostor", none, none, none, none, none, none, none⟩

/-- A raw API record with a small remote id. -/
def remoteItem : RawItem :=
  ⟨1, "Rick", none, none, none, none, none, none, none⟩

/-- The character template the create handler passes to
add_user_character (id 0, to be overwritten). -/
def freshChar : Character :=
  ⟨0, "Summer", "Alive", "Human", "Female", "Earth", "Earth", "", 0, true⟩

/-- An operation sequence whose remote ids collide with the reserved
user range. -/
def badOps : List Op := [.fetch (.ok [impostorItem]), .add freshChar]

/-- An operation sequence with well-behaved remote ids, ending in a
restart. -/
def okOps : List Op := [.fetch (.ok [remoteItem]), .add freshChar, .reload]

/-- The catalog entry used by the search examples. -/
def rickChar : Character :=
  ⟨1, "Rick Sanchez", "Alive", "Human", "Male", "Earth C-137",
   "Citadel of Ricks", "", 51, false⟩

/-- A storage holding only the Rick Sanchez entry. -/
def rickStorage : CharacterStorage := ⟨[rickChar], [], 10000⟩

/-- A remote-origin entry for the id-clash lookup example. -/
def remoteRick : Character :=
  ⟨42, "Remote Rick", "Alive", "Human", "Male", "Earth", "Earth", "", 1,
   false⟩

/-- A user-origin entry sharing the id of remoteRick. -/
def userRick : Character :=
  ⟨42, "User Rick", "Alive", "Human", "Male", "Earth", "Earth", "", 0,
   true⟩

/-- A storage in which a remote entry and a user entry share an id. -/
def clashStorage : CharacterStorage := ⟨[remoteRick], [userRick], 10000⟩

/-! Claim theorems. -/

/-- C1 (amended): in every storage state reachable by fetches, user-entry
additions and startup reloads, provided every successful fetch response
carries ids below the reserved threshold 10000 and without internal
duplicates, every user-created entry has id at least 10000 and the user
flag set, no two entries of the combined catalog share an id, and the
next-user-id counter is changed only by add_user_character, which
increments it by one, while fetch and reload leave its value unchanged.
The proviso on remote ids is forced: the source never checks them, and
c1_identifier_disjointness_cex shows the unrestricted claim fails. -/
theorem c1_identifier_disjointness (ops : List Op)
    (h : ∀ op ∈ ops, OpOK op) :
    (∀ c ∈ (runOps ops).st.user_characters,
        10000 ≤ c.id ∧ c.created_by_user = true)
    ∧ (((runOps ops).st.get_all.map (fun c => c.id)).Nodup)
    ∧ (∀ resp, (step (runOps ops) (.fetch resp)).st.next_id
        = (runOps ops).st.next_id)
    ∧ ((step (runOps ops) .reload).st.next_id = (runOps ops).st.next_id)
    ∧ (∀ char, (step (runOps ops) (.add char)).st.next_id
        = (runOps ops).st.next_id + 1) := by
  obtain ⟨hapi, hapiN, huser, huserN, hnext, hfile⟩ := runOps_inv ops h
  refine ⟨fun c hc => ⟨(huser c hc).1, (huser c hc).2.2⟩, ?_, ?_, ?_,
    fun char => rfl⟩
  · show (((runOps ops).st.api_characters ++
        (runOps ops).st.user_characters).map
          (fun c : Character => c.id)).Nodup
    rw [List.map_append, List.nodup_append]
    refine ⟨hapiN, huserN, ?_⟩
    intro x hx hx'
    obtain ⟨d, hd, hde⟩ := List.mem_map.mp hx
    obtain ⟨d', hd', hde'⟩ := List.mem_map.mp hx'
    have h1 := hapi d hd
    have h2 := (huser d' hd').1
    omega
  · intro resp
    cases resp <;> rfl
  · have hstep : step (runOps ops) .reload =
        ⟨⟨[], (runOps ops).st.user_characters, (runOps ops).st.next_id⟩,
         (runOps ops).file⟩ := by
      simp only [step, hfile]
    rw [hstep]

/-- C1 witness: the hypothesis and conclusion at a concrete operation
sequence consisting of a well-behaved fetch, one user creation and a
restart. -/
theorem c1_identifier_disjointness_witness :
    (∀ op ∈ okOps, OpOK op)
    ∧ (((runOps okOps).st.get_all.map (fun c => c.id)).Nodup) := by
  have h : ∀ op ∈ okOps, OpOK op := by
    intro op hop
    simp only [okOps, List.mem_cons, List.not_mem_nil, or_false] at hop
    rcases hop with rfl | rfl | rfl
    · exact ⟨by decide, by decide⟩
    · trivial
    · trivial
  exact ⟨h, (c1_identifier_disjointness okOps h).2.1⟩

/-- C1 counterexample: after a fetch whose response carries the id 10000
and one user creation, the combined catalog holds two entries with id
10000, so the claimed invariant fails on a reachable state: the source
never guards the remote ids against the reserved user range. -/
theorem c1_identifier_disjointness_cex :
    ¬ (((runOps badOps).st.get_all.map (fun c => c.id)).Nodup) := by
  decide

/-- C2 (amended): an unknown non-empty command fails with suggestions
that are exactly the registered names starting with the first
min(2, length) characters of the typed name (case-insensitivity comes
from the parser lower-casing the typed token; registered names are
lower-case); the message carries them exactly when the list is non-empty,
which the outcome constructor models.  A typed name shorter than two
characters is compared through itself and can therefore still produce
suggestions.  Typing zz against list/search/stats yields none, se yields
search. -/
theorem c2_unknown_command_suggestions (registered : List String)
    (raw_input : String)
    (h1 : (ArgsParser.parse raw_input).command ≠ "")
    (h2 : registered.contains (ArgsParser.parse raw_input).command
      = false) :
    execCommand registered raw_input =
      .unknownCommand (ArgsParser.parse raw_input).command
        (suggestionsSpec registered (ArgsParser.parse raw_input).command)
    ∧ execCommand ["list", "search", "stats"] "zz" =
        .unknownCommand "zz" []
    ∧ execCommand ["list", "search", "stats"] "se" =
        .unknownCommand "se" ["search"] := by
  refine ⟨?_, by decide, by decide⟩
  have h2' : (ArgsParser.parse raw_input).command ∉ registered := by
    simpa using h2
  simp [execCommand, suggestionsSpec, h1, h2']

/-- C2 witness: the dispatch contract at the concrete unknown command
zz against the registered names list, search, stats. -/
theorem c2_unknown_command_suggestions_witness :
    ((ArgsParser.parse "zz").command ≠ ""
      ∧ (["list", "search", "stats"].contains
          (ArgsParser.parse "zz").command = false))
    ∧ execCommand ["list", "search", "stats"] "zz" =
        .unknownCommand (ArgsParser.parse "zz").command
          (suggestionsSpec ["list", "search", "stats"]
            (ArgsParser.parse "zz").command) :=
  ⟨⟨by decide, by decide⟩,
   (c2_unknown_command_suggestions ["list", "search", "stats"] "zz"
      (by decide) (by decide)).1⟩

/-- C2 counterexample: the unknown one-character command l typed against
list/search/stats produces the suggestion list, refuting the clause that
a typed name shorter than two characters reports no suggestions: the
source slices the first two characters of whatever was typed, and a
one-character slice of a one-character name is the name itself. -/
theorem c2_unknown_command_suggestions_cex :
    execCommand ["list", "search", "stats"] "l" =
      .unknownCommand "l" ["list"]
    ∧ "l".length < 2 := by
  decide

/-- C3 (amended): the record mapping of fetch_from_api defaults status
and gender to the lower-case string "unknown" when absent (not the
capitalised "Unknown" the claim states), species to "Unknown", origin and
location to the nested name sub-field with default "Unknown" when the
object or its name key is missing, image reference to the empty string,
and episode count to the length of the episode list, 0 when absent;
present fields are copied, id and name are mandatory and copied, and the
user flag is false. -/
theorem c3_fetch_defaults (item : RawItem) :
    (mapItem item).id = item.id
    ∧ (mapItem item).name = item.name
    ∧ (item.status = none → (mapItem item).status = "unknown")
    ∧ (∀ s, item.status = some s → (mapItem item).status = s)
    ∧ (item.species = none → (mapItem item).species = "Unknown")
    ∧ (∀ s, item.species = some s → (mapItem item).species = s)
    ∧ (item.gender = none → (mapItem item).gender = "unknown")
    ∧ (∀ s, item.gender = some s → (mapItem item).gender = s)
    ∧ (item.origin = none → (mapItem item).origin = "Unknown")
    ∧ (item.origin = some none → (mapItem item).origin = "Unknown")
    ∧ (∀ s, item.origin = some (some s) → (mapItem item).origin = s)
    ∧ (item.location = none → (mapItem item).location = "Unknown")
    ∧ (item.location = some none → (mapItem item).location = "Unknown")
    ∧ (∀ s, item.location = some (some s) → (mapItem item).location = s)
    ∧ (item.image = none → (mapItem item).image_url = "")
    ∧ (∀ s, item.image = some s → (mapItem item).image_url = s)
    ∧ (item.episode = none → (mapItem item).episode_count = 0)
    ∧ (∀ es, item.episode = some es →
        (mapItem item).episode_count = es.length)
    ∧ (mapItem item).created_by_user = false := by
  refine ⟨rfl, rfl, ?_, ?_, ?_, ?_, ?_, ?_, ?_, ?_, ?_, ?_, ?_, ?_, ?_,
    ?_, ?_, ?_, rfl⟩ <;> (intros; simp_all [mapItem])

/-- C3 witness: the defaults at a record carrying only id and name. -/
theorem c3_fetch_defaults_witness :
    bareItem.status = none
    ∧ (mapItem bareItem).status = "unknown"
    ∧ (mapItem bareItem).species = "Unknown"
    ∧ (mapItem bareItem).gender = "unknown"
    ∧ (mapItem bareItem).origin = "Unknown"
    ∧ (mapItem bareItem).location = "Unknown"
    ∧ (mapItem bareItem).image_url = ""
    ∧ (mapItem bareItem).episode_count = 0 := by
  obtain ⟨-, -, h3, -, h5, -, h7, -, h9, -, -, h12, -, -, h15, -, h17,
    -, -⟩ := c3_fetch_defaults bareItem
  exact ⟨rfl, h3 rfl, h5 rfl, h7 rfl, h9 rfl, h12 rfl, h15 rfl, h17 rfl⟩

/-- C3 counterexample: a record with the status and gender keys absent is
mapped to the lower-case "unknown", not to the capitalised "Unknown" the
claim states; the case matters, since the status glyph table of the
source keys on the lower-case string. -/
theorem c3_fetch_defaults_cex :
    (mapItem bareItem).status = "unknown"
    ∧ (mapItem bareItem).status ≠ "Unknown"
    ∧ (mapItem bareItem).gender = "unknown"
    ∧ (mapItem bareItem).gender ≠ "Unknown" := by
  decide

/-- C4: behavior of the startup load at each store condition.  The first
conjunct is the divergence: a durable store holding valid JSON whose
record misses required Character fields is malformed, yet the load
raises TypeError and startup fails, against the stated tolerance of any
malformed store; the except clause catches json.JSONDecodeError and
KeyError, but Character(**item) signals missing keys with TypeError, so
the KeyError arm is unreachable.  An unreadable store likewise fails
startup with an OS error.  The remaining conjuncts record the handled
conditions: absent store and undecodable JSON give the empty sequence
with counter 10000, and reloading a saved store gives the counter rules
the claim states. -/
theorem c4_startup_load :
    loadUserCharacters
        (.json (.jarr [.jobj [("id", .jnum 1), ("name", .jstr "X")]]))
      = .error .typeError
    ∧ loadUserCharacters .unreadable = .error .osError
    ∧ loadUserCharacters .absent = .ok ([], 10000)
    ∧ loadUserCharacters .invalidJSON = .ok ([], 10000)
    ∧ loadUserCharacters (saveUserCharacters []) = .ok ([], 10000)
    ∧ loadUserCharacters (saveUserCharacters [freshChar, rickChar])
      = .ok ([freshChar, rickChar], maxUserId [freshChar, rickChar] + 1) :=
  ⟨rfl, rfl, rfl, rfl, rfl, rfl⟩

/-- C5: a transport failure of fetch_from_api (timeout, connection error
or non-success HTTP status, all covered by the caught RequestException)
leaves the storage exactly as it was, in particular both origin
sequences, and returns the empty list; totality of the embedded function
reflects that no exception escapes the method. -/
theorem c5_fetch_failure_preserves (st : CharacterStorage)
    (e : TransportError) :
    st.fetch_from_api (.failure e) = (st, [])
    ∧ (st.fetch_from_api (.failure e)).1.api_characters
      = st.api_characters
    ∧ (st.fetch_from_api (.failure e)).1.user_characters
      = st.user_characters :=
  ⟨rfl, rfl, rfl⟩

/-- C6: the parser is total and equals the specification-side
description: first token lower-cased as command regardless of shape,
double-dash tokens as long options with lookahead value, single-dash
tokens as boolean flags with value "true", other tokens positional in
order, and the empty invocation on empty input; with the concrete
examples of the specification. -/
theorem c6_parser_spec (raw_input : String) :
    ArgsParser.parse raw_input = specParse raw_input
    ∧ ArgsParser.parse "show 5" = ⟨"show", ["5"], []⟩
    ∧ ArgsParser.parse "search Rick Sanchez"
      = ⟨"search", ["Rick", "Sanchez"], []⟩
    ∧ ArgsParser.parse "fetch --page 2" = ⟨"fetch", [], [("page", "2")]⟩
    ∧ ArgsParser.parse "-x" = ⟨"-x", [], []⟩
    ∧ ArgsParser.parse "" = ⟨"", [], []⟩ := by
  refine ⟨?_, by decide, by decide, by decide, by decide, by decide⟩
  unfold ArgsParser.parse specParse
  cases h : pySplit raw_input with
  | nil => rfl
  | cons cmd rest => simp [parseLoop_eq, buildOptions]

/-- C7: persistence round-trip: loading the store written by
save_user_characters reproduces the exact entry sequence (and applies the
loader counter rule to it). -/
theorem c7_persistence_roundtrip (l : List Character) :
    loadUserCharacters (saveUserCharacters l) =
      .ok (l, if l.isEmpty then 10000 else maxUserId l + 1) :=
  load_save l

/-- C8: search returns exactly the entries of get_all whose name contains
the query as a case-insensitive substring, in catalog order (a filter of
get_all); the entry named Rick Sanchez is matched by the query rick and
not by the query ricky. -/
theorem c8_search_substring (st : CharacterStorage) (query : String) :
    st.search query =
      st.get_all.filter (fun c => ciSubstringMatch query c.name)
    ∧ rickStorage.search "rick" = [rickChar]
    ∧ rickStorage.search "ricky" = [] :=
  ⟨rfl, by decide, by decide⟩

/-- C9: get_by_id misses exactly when no catalog entry has the id,
otherwise returns the first entry of get_all (remote before user) with
the id; in particular, when a remote entry and a user entry share an id,
the remote one is returned. -/
theorem c9_get_by_id_first (st : CharacterStorage) (char_id : Int) :
    (st.get_by_id char_id = none ↔ ∀ c ∈ st.get_all, c.id ≠ char_id)
    ∧ (∀ c, st.get_by_id char_id = some c →
        c.id = char_id
        ∧ ∃ l₁ l₂, st.get_all = l₁ ++ c :: l₂ ∧ ∀ d ∈ l₁, d.id ≠ char_id)
    ∧ ((∃ c ∈ st.api_characters, c.id = char_id) →
        ∃ c, st.get_by_id char_id = some c
          ∧ c ∈ st.api_characters ∧ c.id = char_id) := by
  refine ⟨findById_eq_none _ _, fun c hsome => findById_first _ _ _ hsome,
    fun hex => findById_append_left st.api_characters st.user_characters
      char_id hex⟩

/-- C9 witness: in a storage where a remote entry and a user entry share
id 42, the lookup answers with the remote entry. -/
theorem c9_get_by_id_first_witness :
    (∃ c ∈ clashStorage.api_characters, c.id = 42)
    ∧ ∃ c, clashStorage.get_by_id 42 = some c
        ∧ c ∈ clashStorage.api_characters ∧ c.id = 42 :=
  ⟨⟨remoteRick, by decide, by decide⟩,
   (c9_get_by_id_first clashStorage 42).2.2
     ⟨remoteRick, by decide, by decide⟩⟩

/-- C10: searching with the empty query returns the whole combined
catalog, because the empty string is a substring of every name. -/
theorem c10_search_empty_returns_all (st : CharacterStorage) :
    st.search "" = st.get_all := by
  show st.get_all.filter (fun c => strIn (pyLower "") (pyLower c.name))
    = st.get_all
  refine List.filter_eq_self.mpr (fun c _ => ?_)
  have h : pyLower "" = "" := rfl
  rw [h, strIn_empty]

end Cli
